import Mathlib

/-!
# Verification of the polytope generation engine

A shallow embedding, in Lean 4, of the core of the 4D polytope repository:

* the Todd-Coxeter coset table (`class CosetTable` of the source, HLT strategy
  with coincidence handling, compression, `applyWord`, `getRepresentatives`);
* the plaintext Coxeter diagram parser (`parsePlaintextCoxeterDiagram`);
* the combinatorial part of the polytope assembler (`polygen`).

Conventions of the embedding:

* JavaScript numbers holding coset indices and generator indices are `Nat`.
* JavaScript exceptions are `Except` error results carrying the thrown message.
* JavaScript `undefined` table entries are `Option.none`.
* JavaScript sparse arrays (`(number | undefined)[][]`) are lists of lists of
  options; out-of-range reads yield the JS `undefined` (here `none`), and
  out-of-range writes are only performed by unreachable code paths.
* `while` loops are fueled structural recursions.  Wherever the source loop
  carries its own explicit bound (`iter++ < MAX_ITER`, `iter++ < word.length`)
  the fuel is exactly that bound.  For the two loops of the source that have no
  explicit bound (the dead-coset queue drain and the representative BFS) the
  fuel is chosen larger than the number of iterations the loop can perform, and
  running out of fuel is reported as an `Except.error` with a message that the
  source never throws, so that fuel exhaustion can never be mistaken for a
  source behaviour.
* floating point geometry (mirror placement, vertex coordinates) is out of
  scope of every claim; the assembler embedding keeps each vertex as the
  representative word that produces it instead of its coordinates, so that all
  vertex/edge/face counts and index structures are exactly those of the source.
-/

namespace FourD

/-- Read entry `[a][g]` of a table, JS-style: out of range gives `undefined`. -/
def tget (t : List (List (Option Nat))) (a g : Nat) : Option Nat :=
  ((t.getD a []).getD g none)

/-- Write entry `[a][g]` of a table.  `List.set` is a no-op out of range,
matching the fact that the source only writes in range. -/
def tset (t : List (List (Option Nat))) (a g : Nat) (v : Option Nat) :
    List (List (Option Nat)) :=
  t.set a ((t.getD a []).set g v)

/-- The mutable state of a `CosetTable` instance (the fields of the source
class that change while solving, together with the immutable configuration). -/
structure CT where
  /-- `_isCoxeter`: if true the generators are self-inverse -/
  isCoxeter : Bool
  /-- `_genCount`: number of generators (including inverses if not Coxeter) -/
  genCount : Nat
  /-- `_relations` as integer arrays -/
  relations : List (List Nat)
  /-- `_subgens` as integer arrays -/
  subgens : List (List Nat)
  /-- `_equivalence` -/
  equivalence : List Nat
  /-- `_deadQueue` -/
  deadQueue : List Nat
  /-- `_table` -/
  table : List (List (Option Nat))
  /-- `_alphabet`: complete alphabet including inverses -/
  alphabet : List Char
  /-- `_char2int` as an association list in insertion order -/
  char2int : List (Char × Nat)
  deriving Repr, DecidableEq

namespace CT

/-- `_inv`: the inverse of a generator (`g` itself for Coxeter groups,
`g ^ 1` otherwise). -/
def inv (s : CT) (g : Nat) : Nat :=
  if s.isCoxeter then g else g ^^^ 1

/-- `_deduce`: register the deduction that `cosetA * gen = cosetB`. -/
def deduce (s : CT) (cosetA cosetB gen : Nat) : CT :=
  { s with table := tset (tset s.table cosetA gen (some cosetB))
                         cosetB (s.inv gen) (some cosetA) }

/-- `_define`: define a new coset for which `coset * gen = newCoset`. -/
def define (s : CT) (coset gen : Nat) : CT :=
  let n := s.table.length
  let s := { s with table := s.table ++ [List.replicate s.genCount none] }
  let s := s.deduce coset n gen
  { s with equivalence := s.equivalence ++ [n] }

/-- `_isAlive`: `equivalence[coset] === coset`. -/
def isAlive (s : CT) (coset : Nat) : Bool :=
  s.equivalence.get? coset == some coset

/-- The root-finding loop of `_rep` (`while (r !== equivalence[r]) r = equivalence[r]`),
fueled; under the invariant `equivalence[i] <= i` a fuel of `r + 1` always
suffices, and on fuel exhaustion (unreachable) the current value is returned. -/
def repRoot (E : List Nat) : Nat → Nat → Nat
  | 0, r => r
  | fuel + 1, r => if E.getD r r ≠ r then repRoot E fuel (E.getD r r) else r

/-- The path-compression loop of `_rep`
(`while (c !== r) { tmp = equivalence[c]; equivalence[c] = r; c = tmp }`). -/
def repCompress (r : Nat) : Nat → Nat → List Nat → List Nat
  | 0, _, E => E
  | fuel + 1, c, E =>
    if c ≠ r then repCompress r fuel (E.getD c c) (E.set c r) else E

/-- `_rep`: smallest coset equivalent to `coset`, compressing the chain. -/
def rep (s : CT) (coset : Nat) : Nat × CT :=
  let r := repRoot s.equivalence (coset + 1) coset
  let E := repCompress r (coset + 1) coset s.equivalence
  (r, { s with equivalence := E })

/-- `_merge`: declare the larger of two equivalent cosets dead and queue it. -/
def merge (s : CT) (cosetA cosetB : Nat) : CT :=
  let (a, s) := s.rep cosetA
  let (b, s) := s.rep cosetB
  if a ≠ b then
    let sm := min a b
    let t := max a b
    { s with equivalence := s.equivalence.set t sm,
             deadQueue := s.deadQueue ++ [t] }
  else s

/-- The body of the dead-queue loop of `_coincidence` for one dead coset and
one generator `g` (the `for (let g = 0; ...)` body). -/
def coincGen (s : CT) (dead g : Nat) : CT :=
  match tget s.table dead g with
  | none => s
  | some next =>
    -- Delete next's reference to the dead coset
    let s := { s with table := tset s.table next (s.inv g) none }
    -- Copy the existing information to the representative of the dead coset
    let (deadRep, s) := s.rep dead
    let (nextRep, s) := s.rep next
    let existingNext := tget s.table deadRep g
    let existingDead := tget s.table nextRep (s.inv g)
    if existingNext ≠ none ∧ existingNext ≠ some nextRep then
      -- we have a coincidence
      s.merge nextRep (existingNext.getD 0)
    else if existingDead ≠ none ∧ existingDead ≠ some deadRep then
      -- we have a coincidence
      s.merge deadRep (existingDead.getD 0)
    else
      -- No coincidence, so we can just copy the information
      s.deduce deadRep nextRep g

/-- All generators of one dead coset, in increasing order (`for g` loop). -/
def coincRow (s : CT) (dead : Nat) : Nat → Nat → CT
  | _, 0 => s
  | g, left + 1 => (s.coincGen dead g).coincRow dead (g + 1) left

/-- The `while (deadQueue.length > 0)` drain of `_coincidence`, fueled.  Each
iteration pops one coset and every push is paired with the death of a live
coset, so `2 * table.length + 1` fuel always suffices; exhaustion yields an
error message the source never produces. -/
def coincLoop : Nat → CT → Except String CT
  | 0, _ => .error "drain fuel exhausted (unreachable in the source)"
  | fuel + 1, s =>
    match s.deadQueue with
    | [] => .ok s
    | dead :: rest =>
      let s := { s with deadQueue := rest }
      coincLoop fuel (s.coincRow dead 0 s.genCount)

/-- `_coincidence`: process the coincidence that `cosetA = cosetB`. -/
def coincidence (s : CT) (cosetA cosetB : Nat) : Except String CT :=
  let s := s.merge cosetA cosetB
  coincLoop (2 * s.table.length + 1) s

/-- The forward scan of `_scanAndFill`
(`while (lp <= rp && table[lv][word[lp]] !== undefined) ...`), returning the
updated `(lv, lp)`.  `rp` is an `Int` because it starts at `word.length - 1`,
which is `-1` for the empty word.  Structural fuel: the scan advances `lp`
each step, so `word.length + 1` fuel always outlasts the loop. -/
def scanFwd (s : CT) (word : List Nat) (rp : Int) : Nat → Nat → Nat → Nat × Nat
  | 0, lv, lp => (lv, lp)
  | fuel + 1, lv, lp =>
    if (lp : Int) ≤ rp then
      match tget s.table lv (word.getD lp 0) with
      | some v => scanFwd s word rp fuel v (lp + 1)
      | none => (lv, lp)
    else (lv, lp)

/-- The backward scan of `_scanAndFill`
(`while (rp >= lp && table[rv][inv(word[rp])] !== undefined) ...`), returning
the updated `(rv, rp)`.  `rp` is kept as an `Int` because the source lets it
reach `lp - 1`, which is `-1` when `lp = 0`. -/
def scanBwd (s : CT) (word : List Nat) (lp : Nat) : Nat → Nat → Int → Nat × Int
  | 0, rv, rp => (rv, rp)
  | fuel + 1, rv, rp =>
    if rp ≥ (lp : Int) then
      match tget s.table rv (s.inv (word.getD rp.toNat 0)) with
      | some v => scanBwd s word lp fuel v (rp - 1)
      | none => (rv, rp)
    else (rv, rp)

/-- The outer loop of `_scanAndFill` (`while (iter++ < word.length)`); the
fuel is exactly the source's own `iter` bound, and its exhaustion is the
source's own `throw new Error('Iteration limit exceeded')`. -/
def scanLoop (word : List Nat) : Nat → CT → Nat → Nat → Nat → Int →
    Except String CT
  | 0, _, _, _, _, _ => .error "Iteration limit exceeded"
  | fuel + 1, s, lv, rv, lp, rp =>
    -- Scan forward as far as possible
    let (lv, lp) := scanFwd s word rp (word.length + 1) lv lp
    -- If complete check for coincidence, then stop
    if (lp : Int) > rp then
      if lv ≠ rv then s.coincidence lv rv else .ok s
    else
      -- Scan backward as far as possible until it meets the forward scan
      let (rv, rp) := scanBwd s word lp (word.length + 1) rv rp
      -- If rp and lp overlap, a coincidence has been found
      if rp < (lp : Int) then
        s.coincidence lv rv
      -- If they are about to meet, a deduction can be made
      else if rp = (lp : Int) then
        .ok (s.deduce lv rv (word.getD lp 0))
      -- Otherwise, define a new coset and continue scanning forward
      else
        scanLoop word fuel (s.define lv (word.getD lp 0)) lv rv lp rp

/-- `_scanAndFill`: scan the row of a coset under a given word, defining
cosets as needed. -/
def scanAndFill (s : CT) (coset : Nat) (word : List Nat) :
    Except String CT :=
  scanLoop word word.length s coset coset 0 ((word.length : Int) - 1)

/-- The `for (const rel of relations)` loop inside `_hlt`'s main loop:
scan every relation at `current`, stopping early if `current` dies. -/
def hltRels (current : Nat) : List (List Nat) → CT → Except String CT
  | [], s => .ok s
  | rel :: rest, s =>
    if s.isAlive current then do
      let s ← s.scanAndFill current rel
      hltRels current rest s
    else .ok s

/-- The `for (let g = 0; ...)` row-filling loop inside `_hlt`'s main loop. -/
def hltFill (current : Nat) : Nat → Nat → CT → CT
  | _, 0, s => s
  | g, left + 1, s =>
    let s := if tget s.table current g = none then s.define current g else s
    hltFill current (g + 1) left s

/-- The main loop of `_hlt` (`while (current < table.length && iter++ < MAX_ITER)`).
The fuel is `MAX_ITER - iter`; the returned `Bool` is the value of the final
check `iter >= MAX_ITER`.  When the fuel is exhausted while `current` is still
inside the table the source's `iter++` pushes `iter` past `MAX_ITER`; when the
loop stops by the `current` condition with fuel left, `iter < MAX_ITER`. -/
def hltLoop : Nat → CT → Nat → Except String (CT × Bool)
  | 0, s, _ => .ok (s, true)
  | fuel + 1, s, current =>
    if current < s.table.length then do
      let s ← hltRels current s.relations s
      let s := if s.isAlive current then hltFill current 0 s.genCount s else s
      hltLoop fuel s (current + 1)
    else .ok (s, false)

/-- The `for (const word of subgens) scanAndFill(0, word)` seed loop. -/
def hltSubgens : List (List Nat) → CT → Except String CT
  | [], s => .ok s
  | w :: rest, s => do hltSubgens rest (← s.scanAndFill 0 w)

/-- `_hlt`: run the HLT strategy with the provided iteration limit. -/
def hlt (s : CT) (MAX_ITER : Nat) : Except String CT := do
  let s ← hltSubgens s.subgens s
  let (s, limit) ← hltLoop MAX_ITER s 0
  if limit then .error "Iteration limit exceeded" else .ok s

/-- The per-generator copy loop inside `_compress` (executed when a live coset
moves from index `coset` down to index `ind`). -/
def compressRow (coset ind : Nat) : Nat → Nat → CT → Except String CT
  | _, 0, s => .ok s
  | g, left + 1, s => do
    let s ←
      match tget s.table coset g with
      | some next =>
        if next = coset then
          pure { s with table := tset s.table ind g (some ind) }
        else
          pure (s.deduce ind next g)
      | none => .error "compress should not be called before the table is solved!"
    compressRow coset ind (g + 1) left s

/-- The outer loop of `_compress`, walking every coset and carrying `ind`
(the source's `ind` starts at `-1` and is pre-incremented; here `ind` holds
the number of live cosets seen, so the source's `ind` is `ind - 1`). -/
def compressLoop : Nat → Nat → Nat → CT → Except String (CT × Nat)
  | 0, _, ind, s => .ok (s, ind)
  | left + 1, coset, ind, s =>
    if s.isAlive coset then do
      let ind := ind + 1
      let s ← if ind - 1 ≠ coset then compressRow coset (ind - 1) 0 s.genCount s
              else pure s
      compressLoop left (coset + 1) ind s
    else compressLoop left (coset + 1) ind s

/-- `_compress`: delete all dead cosets in the table, renumbering live ones. -/
def compress (s : CT) : Except String CT := do
  let (s, ind) ← compressLoop s.table.length 0 0 s
  .ok { s with equivalence := List.range ind, table := s.table.take ind }

/-- `solve`: solve the coset table (first call; `_isSolved` only memoizes). -/
def solve (s : CT) (MAX_ITER : Nat := 100000) : Except String CT := do
  (← s.hlt MAX_ITER).compress

/-- `getEntry`: an entry of the coset table. -/
def getEntry (s : CT) (coset gen : Nat) : Option Nat :=
  tget s.table coset gen

/-- `length`: the number of cosets. -/
def length (s : CT) : Nat :=
  s.table.length

/-- The character loop of `applyWord`. -/
def applyChars (s : CT) (word : String) (coset : Nat) :
    List Char → Nat → Except String Nat
  | [], result => .ok result
  | c :: restChars, result =>
    match s.char2int.lookup c with
    | none => .error ("Invalid generator " ++ String.mk [c] ++ " in word " ++ word)
    | some g =>
      match tget s.table result g with
      | none => .error ("Error applying " ++ word ++ " to coset " ++ toString coset
          ++ ", is the coset table solved?")
      | some next => applyChars s word coset restChars next

/-- `applyWord`: the coset obtained by applying `word` to `coset`. -/
def applyWord (s : CT) (coset : Nat) (word : String) : Except String Nat :=
  applyChars s word coset word.data coset

/-- JS sparse-array write `result[i] = v`: extend with holes if needed. -/
def listSetExtend (l : List (Option (List Nat))) (i : Nat) (v : List Nat) :
    List (Option (List Nat)) :=
  if i < l.length then l.set i (some v)
  else l ++ List.replicate (i - l.length) none ++ [some v]

/-- The generator stepper of the BFS in `getRepresentatives`
(`g++` when Coxeter, `g += 2` otherwise). -/
def repsStep (s : CT) (g : Nat) : Nat :=
  if s.isCoxeter then g + 1 else g + 2

/-- The inner generator loop of the BFS of `getRepresentatives`. -/
def repsRow (s : CT) (coset : Nat) : Nat → Nat →
    List (Option (List Nat)) → List Nat → Except String (List (Option (List Nat)) × List Nat)
  | _, 0, result, q => .ok (result, q)
  | g, fuel + 1, result, q =>
    if g < s.genCount then
      match tget s.table coset g with
      | none => .error "Found empty entry, is the coset table solved?"
      | some next =>
        if result.getD next none = none then
          let result := listSetExtend result next ((result.getD coset none).getD [] ++ [g])
          repsRow s coset (s.repsStep g) fuel result (q ++ [next])
        else
          repsRow s coset (s.repsStep g) fuel result q
    else .ok (result, q)

/-- The `while (q.length > 0)` BFS loop of `getRepresentatives`, fueled.
Each iteration pops one coset and every push fills a previously empty slot of
`result` with an index read from the table, so on the solved tables the claims
are about, `table.length * genCount + 1` fuel is more than the number of
iterations; exhaustion gives an error message the source never produces. -/
def repsLoop (s : CT) : Nat → List (Option (List Nat)) → List Nat →
    Except String (List (Option (List Nat)))
  | 0, _, _ => .error "BFS fuel exhausted (unreachable in the source)"
  | fuel + 1, result, q =>
    match q with
    | [] => .ok result
    | coset :: rest => do
      let (result, q) ← repsRow s coset 0 (s.genCount + 1) result rest
      repsLoop s fuel result q

/-- `getRepresentatives`: representative words for each coset, BFS order.
A hole left in `result` (a coset the BFS never reached) is the source's
`undefined.map` TypeError, reported here as an error. -/
def getRepresentatives (s : CT) : Except String (List String) := do
  let result ← repsLoop s (s.table.length * s.genCount + 2) [some []] [0]
  result.mapM fun w =>
    match w with
    | none => .error "TypeError: word is undefined"
    | some word => .ok (String.mk (word.map fun g => s.alphabet.getD g ' '))

end CT

/-- The constructor loop over `generators`, building `char2int` and
`_alphabet` in insertion order. -/
def mkAlphabet (isCoxeter : Bool) : List Char → List Char → List (Char × Nat) →
    Except String (List Char × List (Char × Nat))
  | [], alphabet, char2int => .ok (alphabet, char2int)
  | c :: rest, alphabet, char2int =>
    let c := c.toLower
    if (char2int.lookup c).isSome then
      mkAlphabet isCoxeter rest alphabet char2int
    else
      let char2int := char2int ++ [(c, alphabet.length)]
      let alphabet := alphabet ++ [c]
      if isCoxeter then
        mkAlphabet isCoxeter rest alphabet char2int
      else
        let C := c.toUpper
        if C = c then
          .error ("Generator char " ++ String.mk [c] ++ " has no uppercase equivalent")
        else
          mkAlphabet isCoxeter rest (alphabet ++ [C])
            (char2int ++ [(C, alphabet.length)])

/-- Convert a word over the alphabet to an integer array, checking validity
(used for both relations and subgroup generator words). -/
def wordToInts (char2int : List (Char × Nat)) (kind : String) (r : String) :
    Except String (List Nat) :=
  r.data.mapM fun c =>
    match char2int.lookup c with
    | some g => .ok g
    | none => .error ("Invalid generator " ++ String.mk [c] ++ " in " ++ kind ++ " " ++ r)

/-- `new CosetTable(generators, relations, subgens, isCoxeter)`. -/
def mkCosetTable (generators : String) (relations : List String)
    (subgens : List String) (isCoxeter : Bool := true) : Except String CT := do
  let (alphabet, char2int) ← mkAlphabet isCoxeter generators.data [] []
  let relationsInt ← relations.mapM (wordToInts char2int "relation")
  let subgensInt ← subgens.mapM (wordToInts char2int "subgroup generator")
  let genCount := char2int.length
  .ok { isCoxeter := isCoxeter
        genCount := genCount
        relations := relationsInt
        subgens := subgensInt
        equivalence := [0]
        deadQueue := []
        table := [List.replicate genCount none]
        alphabet := alphabet
        char2int := char2int }

/-! ## The plaintext Coxeter diagram parser (`parsePlaintextCoxeterDiagram`) -/

/-- `combineMethod` of a `PolytopeDescription`. -/
inductive CombineMethod
  | none | compound | lacePrism | laceTower | laceTegum | laceRing
  deriving Repr, DecidableEq

/-- One `subpolytopes` entry.  The source's `offsets[to] = nodeEdgeLengths[c] / 2`
stores half of a fixed irrational real constant per node character; no claim
inspects these reals, so the embedding records the node character written at
the same index (it determines the real).  JS sparse-array index writes are
modelled with `Option` holes. -/
structure Subpoly where
  offsets : List (Option Char)
  active : List Bool
  snub : List Bool
  dual : List Bool
  deriving Repr, DecidableEq

/-- The parser's output (`PolytopeDescription`). -/
structure PolytopeDescription where
  diagram : String
  combineMethod : CombineMethod
  symmetryMatrix : List (List ℚ)
  coxeterMatrix : List (List Nat)
  subpolytopes : List Subpoly
  deriving Repr, DecidableEq

/-- A thrown `DiagramSyntaxError`: the span `[left, right)` into the original
diagram and the list of human-readable reasons, as passed to the source's
`err` helper. -/
structure ParseErr where
  left : Nat
  right : Nat
  details : List String
  deriving Repr, DecidableEq

/-- The message of the thrown error:
``Error parsing diagram at: ${l}[${m}]${r}\n- ${details.join('\n- ')}``. -/
def ParseErr.message (originalDiagram : String) (e : ParseErr) : String :=
  let cs := originalDiagram.data
  let l := String.mk (cs.take e.left)
  let m := String.mk ((cs.take e.right).drop e.left)
  let r := String.mk (cs.drop e.right)
  "Error parsing diagram at: " ++ l ++ "[" ++ m ++ "]" ++ r ++ "\n- "
    ++ String.intercalate "\n- " e.details

/-- `VALID_NODES`. -/
def VALID_NODES : List Char :=
  ['o', 'v', 'x', 's', 'm', 'p', 'q', 'f', 'h', 'k', 'u', 'w', 'F', 'Q', 'd',
   'V', 'U', 'A', 'X', 'B']

/-- `INT_CHARS`. -/
def INT_CHARS : List Char :=
  ['0', '1', '2', '3', '4', '5', '6', '7', '8', '9']

/-- `OTHER_CHARS`. -/
def OTHER_CHARS : List Char := [' ', '/', '*']

/-- `isValidNode`. -/
def isValidNode (c : Char) : Bool := VALID_NODES.contains c

/-- JS `diagram[i]`: a character read that is out of range gives `undefined`;
the `'\x00'` sentinel stands for `undefined` (it is distinct from every
character the parser compares against, and `isValidNode` rejects it just as
`isValidNode(undefined)` is false). -/
def charAt (cs : List Char) (i : Nat) : Char := cs.getD i '\x00'

/-- Set symmetric entries `M[a][b] = M[b][a] = v` of a square matrix. -/
def msetSym (M : List (List α)) (a b : Nat) (v : α) : List (List α) :=
  let M := M.set a ((M.getD a []).set b v)
  M.set b ((M.getD b []).set a v)

/-- JS sparse write `l[i] = v` over an array modelled with `Option` holes. -/
def sparseSet (l : List (Option α)) (i : Nat) (v : α) : List (Option α) :=
  if i < l.length then l.set i (some v)
  else l ++ List.replicate (i - l.length) Option.none ++ [some v]

/-- `diagram.split('&#')`. -/
def ampSplit : List Char → List (List Char)
  | [] => [[]]
  | '&' :: '#' :: rest => [] :: ampSplit rest
  | c :: rest =>
    match ampSplit rest with
    | head :: tail => (c :: head) :: tail
    | [] => [[c]]

/-- `diagram.indexOf('&#')`, `-1` as `none`. -/
def ampIndex : List Char → Nat → Option Nat
  | [], _ => Option.none
  | '&' :: '#' :: _, i => some i
  | _ :: rest, i => ampIndex rest (i + 1)

/-- The state of the first pass over the (lace-stripped) diagram: node-group
sizes, the `newNodeGroup` flag and the running node count. -/
structure GroupScan where
  nodeGroupSizes : List Nat
  newNodeGroup : Bool
  nodeCount : Nat
  deriving Repr, DecidableEq

/-- The first pass (`for (let i = 0; i < diagram.length; i++) ...`): count
nodes, check character validity, and measure node-group sizes.  The fuel is
the number of loop iterations left, `cs.length - i` at every call. -/
def groupScan (cs : List Char) : Nat → Nat → GroupScan → Except ParseErr GroupScan
  | 0, _, st => .ok st
  | fuel + 1, i, st => do
    let char := charAt cs i
    let prevChar := if i > 0 then charAt cs (i - 1) else '\x00'
    let st ←
      if prevChar ≠ '*' then
        if isValidNode char then
          let sizes := if st.newNodeGroup then st.nodeGroupSizes ++ [0]
                       else st.nodeGroupSizes
          pure { st with
            nodeGroupSizes := sizes.set (sizes.length - 1)
                (sizes.getD (sizes.length - 1) 0 + 1),
            newNodeGroup := false,
            nodeCount := st.nodeCount + 1 }
        else if ¬ (OTHER_CHARS.contains char) ∧ ¬ (INT_CHARS.contains char) then
          .error ⟨i, i + 1,
            ["Invalid character \"" ++ String.mk [char] ++ "\"",
             "Valid node types are "
               ++ String.intercalate ", " (VALID_NODES.map fun c => String.mk [c]),
             "Other valid characters are "
               ++ String.intercalate ", "
                   ((INT_CHARS ++ OTHER_CHARS).map fun c => String.mk [c]),
             "And anything coming straight after a '*' is allowed too"]⟩
        else
          pure { st with newNodeGroup := true }
      else pure st
    groupScan cs fuel (i + 1) st

/-- The mutable state of the main parse loop: the matrices, the subpolytope
records, and the `prevWasEdge` / `from` / `to` cursor variables (named
`fromNode` / `toNode` here because `from` is reserved in Lean).  Both are
`Int` because the source initializes `from = -1` and decrements `to`. -/
structure ParseSt where
  S : List (List ℚ)
  C : List (List Nat)
  subpolytopes : List Subpoly
  prevWasEdge : Bool
  fromNode : Int
  toNode : Int
  deriving Repr, DecidableEq

/-- `vnodeTarget(i)`: the target of the virtual node at position `i`.  When
`diagram[i + 1]` is past the end the source crashes on
`undefined.charCodeAt`; here the `'\x00'` sentinel makes `target = -97 < 0`,
so that unreachable-for-the-claims path surfaces as the out-of-range error. -/
def vnodeTarget (cs : List Char) (combineMethod : CombineMethod) (nodeCount : Nat)
    (i : Nat) : Except ParseErr Int :=
  if combineMethod ≠ CombineMethod.none then
    .error ⟨i, i + 1, ["Virtual nodes are not supported in compound/laced diagrams"]⟩
  else
    let target : Int := (charAt cs (i + 1)).toNat - 97
    if target < 0 ∨ target ≥ (nodeCount : Int) then
      .error ⟨i, i + 2,
        ["Virtual node must point to a valid node",
         String.mk [charAt cs (i + 1)] ++ " does not lie between a and "
           ++ String.mk [Char.ofNat (97 + nodeCount - 1)]]⟩
    else .ok target

/-- The digit-run loop of `getInt`; fuel `cs.length + 1` outlasts it since the
out-of-range sentinel is not a digit. -/
def getIntLoop (cs : List Char) : Nat → Nat → List Char → List Char × Nat
  | 0, i, str => (str, i)
  | fuel + 1, i, str =>
    if INT_CHARS.contains (charAt cs i) then
      getIntLoop cs fuel (i + 1) (str ++ [charAt cs i])
    else (str, i)

/-- `getInt`: read an integer at position `i`, returning it and the new cursor.
(The source's `isNaN` re-check is dead code: a nonempty digit run never
parses to `NaN`.) -/
def getInt (cs : List Char) (i : Nat) : Except ParseErr (Nat × Nat) :=
  let i0 := i
  let (str, i) := getIntLoop cs (cs.length + 1) i []
  let val := str.foldl (fun acc c => acc * 10 + (c.toNat - 48)) 0
  if str = [] then .error ⟨i0, i, ["Expected an integer here"]⟩
  else if val < 2 then .error ⟨i0, i, ["Integer must be at least 2"]⟩
  else .ok (val, i)

/-- The node-slot inner loop (`for (let s = 0; s < subpolytopeCount; s++)`). -/
def nodeSlot (cs : List Char) (i : Nat) (toNode : Int) :
    Nat → Nat → List Subpoly → Except ParseErr (List Subpoly)
  | _, 0, subs => .ok subs
  | s, left + 1, subs =>
    let c := charAt cs (i + s)
    if isValidNode c then
      let sp := subs.getD s ⟨[], [], [], []⟩
      let sp : Subpoly :=
        { offsets := sparseSet sp.offsets toNode.toNat c
          active := sp.active ++ [c != 'o']
          dual := sp.dual ++ [c == 'm' || c == 'p']
          snub := sp.snub ++ [c == 's' || c == 'p'] }
      nodeSlot cs i toNode (s + 1) left (subs.set s sp)
    else .error ⟨i + s, i + s + 1, ["Expected a node, is this a valid node type?"]⟩

/-- One edge slot of the main parse loop (the `if (!prevWasEdge)` branch),
returning the updated state and cursor. -/
def edgeSlot (cs : List Char) (cm : CombineMethod) (nodeCount : Nat)
    (i : Nat) (st : ParseSt) : Except ParseErr (ParseSt × Nat) := do
  -- If a vnode exists before the edge value, then we need to jump
  -- to the vnode's target node
  let (fromNode, i) ←
    if charAt cs i == '*' then do
      let target ← vnodeTarget cs cm nodeCount i
      pure (target, i + 2)
    else pure (st.fromNode, i)
  -- Parse the edge value.  `mkRat n0 d` is the exact rational `n0 / d`
  -- (`Rat.mkRat_eq_div`), the value the source's float division computes.
  let (n, f, i) ←
    if charAt cs i != ' ' then do
      let (n0, i) ← getInt cs i
      if charAt cs i == '/' then do
        -- Fractional edge
        let (d, i) ← getInt cs (i + 1)
        pure (n0, mkRat (n0 : Int) d, i)
      else pure (n0, (n0 : ℚ), i)
    else pure (2, (2 : ℚ), i + 1)
  -- If a vnode exists after the edge value, then the edge
  -- points to the vnode's target node
  let (fromNode, toNode, i) ←
    if charAt cs i == '*' then do
      let target ← vnodeTarget cs cm nodeCount i
      pure (target, st.toNode - 1, i + 2)
    else pure (fromNode, st.toNode, i)
  if toNode ≥ (nodeCount : Int) then
    .error ⟨i, i + 1, ["Missing a node here"]⟩
  else
    .ok ({ st with
            S := msetSym st.S fromNode.toNat toNode.toNat f
            C := msetSym st.C fromNode.toNat toNode.toNat n
            fromNode := fromNode
            toNode := toNode
            prevWasEdge := true }, i)

/-- The main parse loop (`while (i < diagram.length)`).  Every iteration
advances `i` by at least one, so fuel `cs.length + 1` outlasts it; the
exhaustion message is never produced by the embedding on inputs the source
terminates on. -/
def parseLoop (cs : List Char) (cm : CombineMethod) (nodeCount subpolytopeCount : Nat) :
    Nat → Nat → ParseSt → Except ParseErr ParseSt
  | 0, _, _ => .error ⟨0, 0, ["parse fuel exhausted (unreachable in the source)"]⟩
  | fuel + 1, i, st =>
    if i < cs.length then
      if !st.prevWasEdge then do
        let (st, i) ← edgeSlot cs cm nodeCount i st
        parseLoop cs cm nodeCount subpolytopeCount fuel i st
      else do
        -- We are processing nodes
        let subs ← nodeSlot cs i st.toNode 0 subpolytopeCount st.subpolytopes
        let st := { st with
          subpolytopes := subs
          fromNode := st.toNode
          toNode := st.toNode + 1
          prevWasEdge := false }
        parseLoop cs cm nodeCount subpolytopeCount fuel (i + subpolytopeCount) st
    else .ok st

/-- The lace-suffix detection step of `parsePlaintextCoxeterDiagram` (from
`const idx = diagram.indexOf('&#')` to `diagram = split[0]`): yields the
`combineMethod` so far and the diagram with the lace indicator removed. -/
def laceStep (cs0 : List Char) : Except ParseErr (CombineMethod × List Char) :=
  match ampIndex cs0 0 with
  | Option.none => .ok (CombineMethod.none, cs0)
  | some idx => do
    let split := ampSplit cs0
    if split.length > 2 then
      .error ⟨idx, cs0.length,
        ["Multiple lace indicators \"&#\" found, only one should be present"]⟩
    else do
      let cm ←
        match String.mk (split.getD 1 []) with
        | "x" => .ok CombineMethod.lacePrism
        | "xt" => .ok CombineMethod.laceTower
        | "m" => .ok CombineMethod.laceTegum
        | "xr" => .ok CombineMethod.laceRing
        | "" => .error (⟨idx, cs0.length,
            ["Lace indicator \"&#\" found, but no lace type specified after it"]⟩ : ParseErr)
        | other => .error (⟨idx, cs0.length, ["Unknown lace type \"" ++ other ++ "\""]⟩ : ParseErr)
      .ok (cm, split.getD 0 [])  -- Remove lace indicator from diagram

/-- The remainder of `parsePlaintextCoxeterDiagram` after the lace step:
the first pass, the validation of node-group sizes, the matrix setup, and the
main parse loop, on the already-stripped diagram `cs`. -/
def parseRest (originalDiagram : String) (combineMethod : CombineMethod)
    (cs : List Char) : Except ParseErr PolytopeDescription := do
  -- Count nodes, check all characters are valid, and measure node groups
  let scan ← groupScan cs cs.length 0 ⟨[], true, 0⟩
  -- Check that the node group sizes are valid
  let subpolytopeCount := scan.nodeGroupSizes.getD 0 0
  if !(scan.nodeGroupSizes.all fun size => size == subpolytopeCount) then
    .error ⟨0, cs.length,
      ["All nodes groups must have the same size",
       "Sizes were: " ++ String.intercalate ", " (scan.nodeGroupSizes.map toString)]⟩
  else do
  let isLaced := combineMethod != CombineMethod.none
      && combineMethod != CombineMethod.compound
  let combineMethod ←
    if subpolytopeCount == 1 && isLaced then
      .error (⟨0, cs.length,
        ["Laced diagrams should have node groups of minimum size 2"]⟩ : ParseErr)
    else if subpolytopeCount > 1 && !isLaced then
      pure CombineMethod.compound
    else pure combineMethod
  let nodeCount := scan.nodeCount / subpolytopeCount
  -- Prepare the data structures
  let S := (List.range nodeCount).map fun i =>
    (List.range nodeCount).map fun j => if i = j then (1 : ℚ) else 2
  let C := (List.range nodeCount).map fun i =>
    (List.range nodeCount).map fun j => if i = j then 1 else 2
  let subpolytopes := List.replicate subpolytopeCount (⟨[], [], [], []⟩ : Subpoly)
  -- Parse the diagram
  if !isValidNode (charAt cs 0) then
    .error ⟨0, 1, ["First character must be a node"]⟩
  else do
  let st ← parseLoop cs combineMethod nodeCount subpolytopeCount (cs.length + 1) 0
    ⟨S, C, subpolytopes, true, -1, 0⟩
  .ok { diagram := originalDiagram
        combineMethod := combineMethod
        symmetryMatrix := st.S
        coxeterMatrix := st.C
        subpolytopes := st.subpolytopes }

/-- `parsePlaintextCoxeterDiagram`. -/
def parsePlaintextCoxeterDiagram (diagram : String) :
    Except ParseErr PolytopeDescription := do
  let originalDiagram := diagram
  let cs0 := diagram.data
  -- Determine if this is a lace diagram
  let (combineMethod, cs) ← laceStep cs0
  parseRest originalDiagram combineMethod cs

/-! ## The polytope assembler (`polygen`)

The geometric half of `polygen` (mirror normals via `placeMirrors`, the
initial vertex via `MMath.solve`, and the reflections producing vertex
coordinates) is floating-point real arithmetic that no claim inspects; the
embedding keeps, for each vertex, the representative word the source reflects
`v0` along (one vertex per representative, in the same order), and reproduces
the combinatorial index structure of edges, faces and cells exactly. -/

/-- The output `Polytope` record, with vertices as representative words. -/
structure Polytope where
  vertices : List String
  edges : List (List Nat)
  faces : List (List Nat)
  cells : List (List Nat)
  deriving Repr, DecidableEq

/-- `arange(d)` (the source's one-argument call form: `0, 1, ..., d - 1`). -/
def arange (n : Nat) : List Nat := List.range n

/-- The recursive `helper` of `combinations`, fueled by `size + 1 - current.length`. -/
def combosHelper (array : List α) [Inhabited α] (size : Nat) :
    Nat → Nat → List α → List (List α)
  | 0, _, _ => []
  | fuel + 1, start, current =>
    if current.length == size then [current]
    else
      (List.range' start (array.length - start)).flatMap fun i =>
        combosHelper array size fuel (i + 1) (current ++ [array.getD i default])

/-- `combinations(array, size)`. -/
def combinations (array : List α) [Inhabited α] (size : Nat) : List (List α) :=
  combosHelper array size (size + 1) 0 []

/-- `${a}${b}`.repeat(k)`. -/
def strRepeat (s : String) (k : Nat) : String :=
  String.join (List.replicate k s)

/-- `getRelations`: the relations contained within a coxeter diagram. -/
def getRelations (coxeterMatrix : List (List Nat)) (alphabet : String) :
    List String :=
  let n := coxeterMatrix.length
  (List.range n).flatMap fun i =>
    (List.range i).map fun j =>
      strRepeat (String.mk [alphabet.data.getD i ' ', alphabet.data.getD j ' '])
        ((coxeterMatrix.getD i []).getD j 0)

/-- `polygen`.  Parse errors propagate with their rendered message, exactly
as the source lets the parser's thrown `Error` escape. -/
def polygen (diagram : String) : Except String Polytope := do
  let info ←
    match parsePlaintextCoxeterDiagram diagram with
    | .error e => .error (e.message diagram)
    | .ok info => .ok info
  let S := info.symmetryMatrix
  let C := info.coxeterMatrix
  let combineMethod := info.combineMethod
  let subpolytopes := info.subpolytopes
  let d := S.length
  let alphabet : String := String.mk ("abcdefghijklmnopqrstuvwxyz".data.take d)
  -- (`char2int` of the source is used only by the omitted vertex-reflection
  --  geometry, hence the underscore)
  let _char2int : List (Char × Nat) := alphabet.data.enum.map fun (i, c) => (c, i)

  -- Check that the input is valid
  let poly := subpolytopes.getD 0 ⟨[], [], [], []⟩
  if d > 4 ∨ d < 2 then
    .error "Only 2-3D polytopes are supported"
  else if combineMethod != CombineMethod.none then
    .error "Plytope compounds/laces are not supported!"
  -- (the source's fractional-symmetry check `S[i][j] != C[i][j]` is commented
  --  out in `polygen.ts`, so no such check is performed here either)
  else if poly.dual.any id then
    .error "Dual polytopes are not supported!"
  else if poly.snub.any id then
    .error "Snub polytopes are not supported!"
  else do

  -- (placeMirrors / placeInitialVertex: real-valued geometry, out of scope)
  let relations := getRelations C alphabet

  -- Generate vertices
  let subgens := ((poly.active.enum.map fun (i, a) =>
      if a then "" else String.mk [alphabet.data.getD i ' ']).filter fun x => x ≠ "")
  let vct ← mkCosetTable alphabet relations subgens
  let vct ← vct.solve
  let vertices ← vct.getRepresentatives
  -- (each representative word stands for the vertex obtained by reflecting
  --  v0 along it)

  -- Utility functions for generating edges and faces
  let getOrthogonalStabilizingMirrors : List Nat → List Nat := fun subgens =>
    (List.range d).filter fun s =>
      (subgens.all fun g => (S.getD g []).getD s 0 == 2) && !(poly.active.getD s false)
  let getOrbit : List String → List Nat → Except String (List (List Nat)) :=
    fun cosetReps base =>
      cosetReps.mapM fun rep => base.mapM fun i => vct.applyWord i rep

  -- Generate edges
  let edges : List (List Nat) ← (List.range d).foldlM (fun edges i => do
    -- Each active mirror produces an edge
    if poly.active.getD i false then do
      let e1 ← vct.applyWord 0 (String.mk [alphabet.data.getD i ' '])
      let e0 := [0, e1]
      let subgens := ([i] ++ getOrthogonalStabilizingMirrors [i]).map fun j =>
        String.mk [alphabet.data.getD j ' ']
      let ect ← mkCosetTable alphabet relations subgens
      let ect ← ect.solve
      let reps ← ect.getRepresentatives
      let orbit ← getOrbit reps e0
      pure (edges ++ orbit)
    else pure edges) []

  -- Generate faces
  let (faces, faceinfo) ←
    (combinations (arange d) 2).foldlM
      (fun (acc : List (List Nat) ×
            List (List Nat × List Nat × CT × Nat)) pair => do
        let (faces, faceinfo) := acc
        let i := pair.getD 0 0
        let j := pair.getD 1 0
        let m := (S.getD i []).getD j 0
        let c := (C.getD i []).getD j 0
        let f0 : List Nat ←
          -- If both mirrors are active, then they generate a face
          if poly.active.getD i false && poly.active.getD j false then
            (List.range c).foldlM (fun f0 k => do
              let word := strRepeat
                (String.mk [alphabet.data.getD i ' ', alphabet.data.getD j ' ']) k
              let v1 ← vct.applyWord 0 word
              let v2 ← vct.applyWord 0 (String.mk [alphabet.data.getD j ' '] ++ word)
              pure (f0 ++ [v1, v2])) []
          -- If one mirror is active, and the other is not orthogonal to that
          -- mirror, then they generate a face
          else if (poly.active.getD i false || poly.active.getD j false) && m != 2 then
            (List.range c).foldlM (fun f0 k => do
              let word := strRepeat
                (String.mk [alphabet.data.getD i ' ', alphabet.data.getD j ' ']) k
              let v1 ← vct.applyWord 0 word
              pure (f0 ++ [v1])) []
          else pure []
        if f0.length == 0 then pure (faces, faceinfo)
        else do
          let stabilizers := [i, j] ++ getOrthogonalStabilizingMirrors [i, j]
          let subgens := stabilizers.map fun k => String.mk [alphabet.data.getD k ' ']
          let fct ← mkCosetTable alphabet relations subgens
          let fct ← fct.solve
          let reps ← fct.getRepresentatives
          let idx := faces.length
          let orbit ← getOrbit reps f0
          pure (faces ++ orbit, faceinfo ++ [([i, j], stabilizers, fct, idx)]))
      ([], [])

  -- Generate cells (4D only)
  let cells : List (List Nat) ←
    if d > 3 then
      (combinations (arange d) 3).foldlM (fun cells combo => do
        let i := combo.getD 0 0
        let j := combo.getD 1 0
        let k := combo.getD 2 0
        -- In general, if active mirror count <= number of orthogonal pairs,
        -- then the n mirrors generate a face/cell/etc
        let activeCount := (if poly.active.getD i false then 1 else 0)
          + (if poly.active.getD j false then 1 else 0)
          + (if poly.active.getD k false then 1 else 0)
        let orthoCount := (if (S.getD i []).getD j 0 == 2 then 1 else 0)
          + (if (S.getD i []).getD k 0 == 2 then 1 else 0)
          + (if (S.getD j []).getD k 0 == 2 then 1 else 0)
        if orthoCount > activeCount ∨ activeCount == 0 then
          pure cells  -- This combination does not generate a cell
        else do
          let subgens := ([i, j, k] ++ getOrthogonalStabilizingMirrors [i, j, k]).map
            fun l => String.mk [alphabet.data.getD l ' ']
          let cct ← mkCosetTable alphabet relations subgens
          let cct ← cct.solve
          let reps ← cct.getRepresentatives
          -- 1) Find the subalphabet, subrelations, and subgenerators of cell0
          let subalphabet := String.mk
            [alphabet.data.getD i ' ', alphabet.data.getD j ' ', alphabet.data.getD k ' ']
          let subrelations := relations.filter fun r =>
            r.data.all fun c => subalphabet.data.contains c
          -- 2) For each face family contained in this combo, locate the
          --    copies of its seed face that lie in cell0 and translate them
          --    along this cell orbit's representatives
          let toAdd : List (List Nat) ← faceinfo.foldlM
            (fun (toAdd : List (List Nat)) info => do
              let (generators, stabilizers, ct, idx) := info
              if generators.all fun g => combo.contains g then do
                let subgens := (stabilizers.filter fun g => combo.contains g).map
                  fun l => String.mk [alphabet.data.getD l ' ']
                let sct ← mkCosetTable subalphabet subrelations subgens
                let sct ← sct.solve
                let sreps ← sct.getRepresentatives
                let orbot ← sreps.mapM fun rep => ct.applyWord 0 rep
                (List.range toAdd.length).mapM fun r => do
                  let word := reps.getD r ""
                  let extra ← orbot.mapM fun o => do
                    let v ← ct.applyWord o word
                    pure (v + idx)
                  pure (toAdd.getD r [] ++ extra)
              else pure toAdd)
            (List.replicate reps.length [])
          pure (cells ++ toAdd))
        []
    else pure []

  .ok { vertices := vertices, edges := edges, faces := faces, cells := cells }

/-! ## Parser matrix invariants (for the symmetry/unit-diagonal claim)

`MatSymm`, `MatSquare` and `MatUnitDiag` state the claimed matrix properties
in the JS `getD`-reading; the lemmas below track them through every write the
parser performs (`msetSym`, the only mutation of `S` and `C`), through the
main parse loop, and back through the lace-stripping step. -/

def MatSymm (M : List (List α)) (d : α) : Prop :=
  ∀ i j, (M.getD i []).getD j d = (M.getD j []).getD i d

def MatSquare (M : List (List α)) (n : Nat) : Prop :=
  M.length = n ∧ ∀ row ∈ M, row.length = n

def MatUnitDiag (M : List (List α)) (d one : α) : Prop :=
  ∀ i, i < M.length → (M.getD i []).getD i d = one

theorem getD_set_self' (l : List α) (i : Nat) (v d : α) (h : i < l.length) :
    (l.set i v).getD i d = v := by
  simp [List.getD_eq_getElem?_getD, List.getElem?_set_self h]

theorem getD_set_ne' (l : List α) {i j : Nat} (v d : α) (h : i ≠ j) :
    (l.set i v).getD j d = l.getD j d := by
  simp [List.getD_eq_getElem?_getD, List.getElem?_set_ne h]

theorem getD_mem' {l : List α} {i : Nat} (h : i < l.length) (d : α) :
    l.getD i d ∈ l := by
  rw [List.getD_eq_getElem?_getD, List.getElem?_eq_getElem h]
  simp

theorem getD_row_length {M : List (List α)} {n a : Nat} (hsq : MatSquare M n)
    (ha : a < n) : (M.getD a []).length = n := by
  obtain ⟨hlen, hrows⟩ := hsq
  exact hrows _ (getD_mem' (by omega) [])

theorem getD_row_nil {M : List (List α)} {n a : Nat} (hsq : MatSquare M n)
    (ha : ¬ a < n) : M.getD a [] = [] := by
  obtain ⟨hlen, _⟩ := hsq
  simp [List.getD_eq_getElem?_getD, List.getElem?_eq_none (by omega : M.length ≤ a)]

theorem mset_read (M : List (List α)) (a b : Nat) (v : α) (i j : Nat) (d : α) :
    ((M.set a ((M.getD a []).set b v)).getD i []).getD j d =
      if i = a ∧ j = b ∧ a < M.length ∧ b < (M.getD a []).length then v
      else (M.getD i []).getD j d := by
  by_cases hia : i = a
  · subst hia
    by_cases ha : i < M.length
    · rw [getD_set_self' _ _ _ _ ha]
      by_cases hjb : j = b
      · subst hjb
        by_cases hb : j < (M.getD i []).length
        · rw [getD_set_self' _ _ _ _ hb, if_pos ⟨rfl, rfl, ha, hb⟩]
        · rw [List.set_eq_of_length_le (by omega), if_neg (by tauto)]
      · rw [getD_set_ne' _ _ _ (by omega), if_neg (by tauto)]
    · rw [List.set_eq_of_length_le (by omega), if_neg (by tauto)]
  · rw [getD_set_ne' _ _ _ (by omega), if_neg (by tauto)]

theorem mset_square {M : List (List α)} {n : Nat} (hsq : MatSquare M n)
    (a b : Nat) (v : α) :
    MatSquare (M.set a ((M.getD a []).set b v)) n := by
  obtain ⟨hlen, hrows⟩ := hsq
  by_cases ha : a < M.length
  · refine ⟨by simp [hlen], ?_⟩
    intro row hrow
    rcases List.mem_or_eq_of_mem_set hrow with h | h
    · exact hrows _ h
    · subst h
      rw [List.length_set]
      exact hrows _ (getD_mem' ha [])
  · rw [List.set_eq_of_length_le (by omega)]
    exact ⟨hlen, hrows⟩

theorem msetSym_square {M : List (List α)} {n : Nat} (hsq : MatSquare M n)
    (a b : Nat) (v : α) : MatSquare (msetSym M a b v) n :=
  mset_square (mset_square hsq a b v) b a v

theorem msetSym_read {M : List (List α)} {n : Nat} (hsq : MatSquare M n)
    (a b : Nat) (v : α) (i j : Nat) (d : α) :
    ((msetSym M a b v).getD i []).getD j d =
      if (i = a ∧ j = b ∨ i = b ∧ j = a) ∧ a < n ∧ b < n then v
      else (M.getD i []).getD j d := by
  have h1 := mset_square hsq a b v
  unfold msetSym
  rw [mset_read, mset_read]
  have hlen1 : (M.set a ((M.getD a []).set b v)).length = n := h1.1
  have hlen : M.length = n := hsq.1
  by_cases ha : a < n
  · by_cases hb : b < n
    · have hrowa : (M.getD a []).length = n := getD_row_length hsq ha
      have hrowb1 : ((M.set a ((M.getD a []).set b v)).getD b []).length = n :=
        getD_row_length h1 hb
      by_cases hba : i = b ∧ j = a
      · obtain ⟨rfl, rfl⟩ := hba
        rw [if_pos ⟨rfl, rfl, by omega, by omega⟩, if_pos (by tauto)]
      · rw [if_neg (by tauto)]
        by_cases hab : i = a ∧ j = b
        · obtain ⟨rfl, rfl⟩ := hab
          rw [if_pos ⟨rfl, rfl, by omega, by omega⟩, if_pos (by tauto)]
        · rw [if_neg (by tauto), if_neg (by tauto)]
    · have hrowa : (M.getD a []).length = n := getD_row_length hsq ha
      have hrowb1 : ((M.set a ((M.getD a []).set b v)).getD b []).length ≤ a := by
        rw [getD_row_nil h1 hb]; simp
      rw [if_neg (fun h => by omega),
        if_neg (fun h => by obtain ⟨_, _, _, h4⟩ := h; omega),
        if_neg (by tauto)]
  · have hrowa : (M.getD a []).length = 0 := by rw [getD_row_nil hsq ha]; rfl
    have hrowb1 : ((M.set a ((M.getD a []).set b v)).getD b []).length ≤ a := by
      by_cases hb : b < n
      · rw [getD_row_length h1 hb]; omega
      · rw [getD_row_nil h1 hb]; simp
    rw [if_neg (fun h => by omega),
      if_neg (fun h => by obtain ⟨_, _, _, h4⟩ := h; omega),
      if_neg (by tauto)]

theorem msetSym_symm {M : List (List α)} {n : Nat} (hsq : MatSquare M n)
    {d : α} (hsym : MatSymm M d) (a b : Nat) (v : α) :
    MatSymm (msetSym M a b v) d := by
  intro i j
  rw [msetSym_read hsq, msetSym_read hsq]
  by_cases h : (i = a ∧ j = b ∨ i = b ∧ j = a) ∧ a < n ∧ b < n
  · rw [if_pos h, if_pos (by tauto)]
  · rw [if_neg h, if_neg (by tauto)]
    exact hsym i j

theorem msetSym_length {M : List (List α)} (a b : Nat) (v : α) :
    (msetSym M a b v).length = M.length := by
  simp [msetSym]

theorem msetSym_diag {M : List (List α)} {n : Nat} (hsq : MatSquare M n)
    {d one : α} (hdiag : MatUnitDiag M d one) {a b : Nat} (hab : a ≠ b) (v : α) :
    MatUnitDiag (msetSym M a b v) d one := by
  intro i hi
  rw [msetSym_read hsq, if_neg (fun h => by rcases h with ⟨h1 | h1, -⟩ <;> omega)]
  rw [msetSym_length] at hi
  exact hdiag i hi

theorem star_of_charAt {cs : List Char} {i : Nat} (h : charAt cs i = '*') :
    '*' ∈ cs := by
  unfold charAt at h
  by_cases hi : i < cs.length
  · rw [List.getD_eq_getElem?_getD, List.getElem?_eq_getElem hi] at h
    simp at h
    exact h ▸ List.getElem_mem hi
  · rw [List.getD_eq_getElem?_getD, List.getElem?_eq_none (by omega)] at h
    simp at h

theorem edgeSlot_ok_inv {cs : List Char} {cm : CombineMethod} {n : Nat}
    {i : Nat} {st st' : ParseSt} {i' : Nat}
    (h : edgeSlot cs cm n i st = .ok (st', i')) :
    ∃ (F T : Int) (fq : ℚ) (nn : Nat),
      st' = { st with S := msetSym st.S F.toNat T.toNat fq,
                      C := msetSym st.C F.toNat T.toNat nn,
                      fromNode := F, toNode := T, prevWasEdge := true } ∧
      T < (n : Int) ∧
      ('*' ∉ cs → F = st.fromNode ∧ T = st.toNode) := by
  unfold edgeSlot at h
  simp only [bind, Except.bind, pure, Except.pure] at h
  repeat' split at h
  all_goals
    first
    | exact Except.noConfusion h
    | (simp only [Except.ok.injEq, Prod.mk.injEq] at h
       obtain ⟨h1, -⟩ := h
       subst h1
       refine ⟨_, _, _, _, rfl, by omega, fun hns => ?_⟩
       first
       | exact ⟨rfl, rfl⟩
       | exact absurd (star_of_charAt (eq_of_beq (by assumption))) hns)

theorem mapRange_getD (n : Nat) (g : Nat → β) (dflt : β) (i : Nat) :
    ((List.range n).map g).getD i dflt = if i < n then g i else dflt := by
  by_cases hi : i < n
  · rw [List.getD_eq_getElem?_getD, List.getElem?_map, List.getElem?_range hi]
    simp [hi]
  · rw [List.getD_eq_getElem?_getD, List.getElem?_eq_none (by simpa using hi)]
    simp [hi]

/-- Reading the freshly initialized matrices. -/
theorem initMat_read (n : Nat) (f : Nat → Nat → α) (d : α) (i j : Nat) :
    ((((List.range n).map fun i => (List.range n).map fun j => f i j).getD i []).getD j d)
      = if i < n ∧ j < n then f i j else d := by
  rw [mapRange_getD]
  by_cases hi : i < n
  · rw [if_pos hi, mapRange_getD]
    by_cases hj : j < n
    · rw [if_pos hj, if_pos ⟨hi, hj⟩]
    · rw [if_neg hj, if_neg (by tauto)]
  · rw [if_neg hi, if_neg (by tauto)]
    rfl

theorem initMat_square (n : Nat) (f : Nat → Nat → α) :
    MatSquare ((List.range n).map fun i => (List.range n).map fun j => f i j) n := by
  constructor
  · simp
  · intro row hrow
    obtain ⟨a, _, rfl⟩ := List.mem_map.mp hrow
    simp

theorem initMat_symm (n : Nat) (one two d : α) :
    MatSymm ((List.range n).map fun i => (List.range n).map fun j =>
      if i = j then one else two) d := by
  intro i j
  rw [initMat_read, initMat_read]
  by_cases hi : i < n
  all_goals by_cases hj : j < n
  all_goals simp [hi, hj, and_comm]
  all_goals by_cases hij : i = j
  all_goals simp [hij, Eq.comm]

theorem initMat_diag (n : Nat) (one two d : α) :
    MatUnitDiag ((List.range n).map fun i => (List.range n).map fun j =>
      if i = j then one else two) d one := by
  intro i hi
  simp only [List.length_map, List.length_range] at hi
  rw [initMat_read]
  simp [hi]

/-- The base invariant of the main parse loop: square, symmetric matrices. -/
def ParseInvBase (n : Nat) (st : ParseSt) : Prop :=
  MatSquare st.S n ∧ MatSquare st.C n ∧ MatSymm st.S 0 ∧ MatSymm st.C 0

/-- The extra invariant available when the diagram has no virtual nodes:
unit diagonals, a nonnegative `to` cursor, and `from + 1 = to` (with `to` at
least 1) whenever the next slot is an edge slot. -/
def ParseInvStar (st : ParseSt) : Prop :=
  MatUnitDiag st.S 0 1 ∧ MatUnitDiag st.C 0 1 ∧ 0 ≤ st.toNode ∧
  (st.prevWasEdge = false → st.fromNode + 1 = st.toNode ∧ 1 ≤ st.toNode)

theorem parseLoop_base {cs : List Char} {cm : CombineMethod} {n spc : Nat} :
    ∀ (fuel i : Nat) (st st' : ParseSt), ParseInvBase n st →
      parseLoop cs cm n spc fuel i st = .ok st' → ParseInvBase n st' := by
  intro fuel
  induction fuel with
  | zero => intro i st st' _ h; exact Except.noConfusion h
  | succ fuel ih =>
    intro i st st' hinv h
    unfold parseLoop at h
    by_cases hi : i < cs.length
    · rw [if_pos hi] at h
      by_cases hpe : !st.prevWasEdge
      · rw [if_pos hpe] at h
        simp only [bind, Except.bind] at h
        cases he : edgeSlot cs cm n i st with
        | error e => rw [he] at h; exact Except.noConfusion h
        | ok p =>
          obtain ⟨st1, i1⟩ := p
          rw [he] at h
          obtain ⟨F, T, fq, nn, rfl, hT, hns⟩ := edgeSlot_ok_inv he
          obtain ⟨hS, hC, hsymS, hsymC⟩ := hinv
          exact ih i1 _ st' ⟨msetSym_square hS _ _ _, msetSym_square hC _ _ _,
            msetSym_symm hS hsymS _ _ _, msetSym_symm hC hsymC _ _ _⟩ h
      · rw [if_neg hpe] at h
        simp only [bind, Except.bind] at h
        cases hn : nodeSlot cs i st.toNode 0 spc st.subpolytopes with
        | error e => rw [hn] at h; exact Except.noConfusion h
        | ok subs =>
          rw [hn] at h
          simp only at h
          exact ih (i + spc) ⟨st.S, st.C, subs, false, st.toNode, st.toNode + 1⟩ st' hinv h
    · rw [if_neg hi] at h
      cases h
      exact hinv

theorem parseLoop_star {cs : List Char} {cm : CombineMethod} {n spc : Nat}
    (hstar : '*' ∉ cs) :
    ∀ (fuel i : Nat) (st st' : ParseSt), ParseInvBase n st → ParseInvStar st →
      parseLoop cs cm n spc fuel i st = .ok st' → ParseInvStar st' := by
  intro fuel
  induction fuel with
  | zero => intro i st st' _ _ h; exact Except.noConfusion h
  | succ fuel ih =>
    intro i st st' hinv hstarInv h
    unfold parseLoop at h
    by_cases hi : i < cs.length
    · rw [if_pos hi] at h
      by_cases hpe : !st.prevWasEdge
      · rw [if_pos hpe] at h
        simp only [bind, Except.bind] at h
        cases he : edgeSlot cs cm n i st with
        | error e => rw [he] at h; exact Except.noConfusion h
        | ok p =>
          obtain ⟨st1, i1⟩ := p
          rw [he] at h
          obtain ⟨F, T, fq, nn, rfl, hT, hns⟩ := edgeSlot_ok_inv he
          obtain ⟨hF, hTeq⟩ := hns hstar
          obtain ⟨hS, hC, hsymS, hsymC⟩ := hinv
          obtain ⟨hdS, hdC, hto, hedge⟩ := hstarInv
          obtain ⟨hfrom, hto1⟩ := hedge (by simpa using hpe)
          have hFT : F.toNat ≠ T.toNat := by omega
          refine ih i1 _ st'
            ⟨msetSym_square hS _ _ _, msetSym_square hC _ _ _,
             msetSym_symm hS hsymS _ _ _, msetSym_symm hC hsymC _ _ _⟩
            ⟨msetSym_diag hS hdS hFT _, msetSym_diag hC hdC hFT _, ?_, ?_⟩ h
          · simpa [hTeq] using hto
          · intro hfalse; simp at hfalse
      · rw [if_neg hpe] at h
        simp only [bind, Except.bind] at h
        cases hn : nodeSlot cs i st.toNode 0 spc st.subpolytopes with
        | error e => rw [hn] at h; exact Except.noConfusion h
        | ok subs =>
          rw [hn] at h
          simp only at h
          obtain ⟨hdS, hdC, hto, _⟩ := hstarInv
          refine ih (i + spc) ⟨st.S, st.C, subs, false, st.toNode, st.toNode + 1⟩ st' hinv
            ⟨hdS, hdC, by show (0:Int) ≤ st.toNode + 1; omega, ?_⟩ h
          intro _
          exact ⟨rfl, by show (1:Int) ≤ st.toNode + 1; omega⟩
    · rw [if_neg hi] at h
      cases h
      exact hstarInv

theorem ampSplit_ne_nil (cs : List Char) : ampSplit cs ≠ [] := by
  unfold ampSplit
  split
  · simp
  · simp
  · split <;> simp

theorem ampSplit_head_prefix (cs : List Char) :
    ∃ rest, cs = (ampSplit cs).getD 0 [] ++ rest := by
  induction cs with
  | nil => exact ⟨[], rfl⟩
  | cons c rest ih =>
    rw [ampSplit.eq_def]
    split
    next x heq => exact absurd heq (by simp)
    next x rest2 heq => exact ⟨c :: rest, by simp⟩
    next x cp restp hno heq =>
      injection heq with h1 h2
      subst h1
      subst h2
      cases hsplit : ampSplit rest with
      | nil => exact absurd hsplit (ampSplit_ne_nil rest)
      | cons hd tl =>
        obtain ⟨r, hr⟩ := ih
        rw [hsplit] at hr
        refine ⟨r, ?_⟩
        simpa using hr

theorem laceStep_cs {cs0 : List Char} {cm : CombineMethod} {cs : List Char}
    (h : laceStep cs0 = .ok (cm, cs)) :
    ∀ c, c ∈ cs → c ∈ cs0 := by
  unfold laceStep at h
  simp only [bind, Except.bind, pure, Except.pure] at h
  split at h
  · cases h
    exact fun c hc => hc
  · repeat' split at h
    all_goals first
      | exact Except.noConfusion h
      | (injection h with h
         injection h with h1 h2
         subst h2
         intro c hc
         obtain ⟨r, hr⟩ := ampSplit_head_prefix cs0
         rw [hr]
         exact List.mem_append_left _ hc)

theorem parseRest_ok_inv {od : String} {cm : CombineMethod} {cs : List Char}
    {info : PolytopeDescription}
    (h : parseRest od cm cs = .ok info) :
    ∃ (cm' : CombineMethod) (n spc : Nat) (st : ParseSt),
      parseLoop cs cm' n spc (cs.length + 1) 0
        ⟨(List.range n).map fun i => (List.range n).map fun j => if i = j then (1 : ℚ) else 2,
         (List.range n).map fun i => (List.range n).map fun j => if i = j then 1 else 2,
         List.replicate spc ⟨[], [], [], []⟩, true, -1, 0⟩ = .ok st ∧
      info.symmetryMatrix = st.S ∧ info.coxeterMatrix = st.C := by
  unfold parseRest at h
  simp only [bind, Except.bind, pure, Except.pure] at h
  cases e1 : groupScan cs cs.length 0 ⟨[], true, 0⟩ with
  | error e => rw [e1] at h; exact Except.noConfusion h
  | ok scan =>
    rw [e1] at h
    simp only at h
    repeat' split at h
    all_goals first
      | exact Except.noConfusion h
      | (rename_i st heq
         injection h with h
         exact ⟨_, _, _, st, heq, by rw [← h], by rw [← h]⟩)


/-! ## Claim theorems: the concrete functional-correctness and error cases -/

deriving instance DecidableEq for Except

set_option maxRecDepth 10000

/-- **C1.**  For the diagram `"x4o3o"`, `polygen` returns a polytope with
exactly 8 vertices, 12 edges, and 6 faces where every face is a list of
exactly 4 vertex indices; for the diagram `"x3o3o"`, `polygen` returns exactly
4 vertices, 6 edges, and 4 faces where every face is a list of exactly 3
vertex indices. -/
theorem polygen_cube_and_tetrahedron_counts :
    (polygen "x4o3o").map (fun p =>
        (p.vertices.length, p.edges.length, p.faces.length,
         p.faces.all fun f => f.length == 4 && f.all fun v => v < 8))
      = .ok (8, 12, 6, true) ∧
    (polygen "x3o3o").map (fun p =>
        (p.vertices.length, p.edges.length, p.faces.length,
         p.faces.all fun f => f.length == 3 && f.all fun v => v < 4))
      = .ok (4, 6, 4, true) :=
  ⟨by decide, by decide⟩

/-- **C2.**  For the alphabet `"abc"` with the relator words derived from the
Coxeter matrix of `"x4o3o"` — namely `(ba)^4`, `(ca)^2`, `(cb)^3` — and the
empty subgroup generator list, constructing a `CosetTable` and calling
`solve()` succeeds and yields `length = 48`, the order of the cube's full
reflection group. -/
theorem cosetTable_cube_group_order_48 :
    (parsePlaintextCoxeterDiagram "x4o3o").map (fun i => i.coxeterMatrix)
      = .ok [[1, 4, 2], [4, 1, 3], [2, 3, 1]] ∧
    getRelations [[1, 4, 2], [4, 1, 3], [2, 3, 1]] "abc"
      = ["babababa", "caca", "cbcbcb"] ∧
    (do
      let t ← mkCosetTable "abc" ["babababa", "caca", "cbcbcb"] []
      let t ← t.solve
      pure t.length : Except String Nat) = .ok 48 :=
  ⟨by decide, by decide, by decide⟩

/-- **C6 (counterexample).**  The claim says `polygen "x5/2o3o"` raises an
unsupported-feature error rather than returning a polytope; in fact `polygen`
returns normally on this diagram — the fractional-symmetry check in
`polygen.ts` is commented out. -/
theorem polygen_fractional_returns_ok :
    (polygen "x5/2o3o").isOk = true := by decide

/-- **C6 (amended).**  `"x5/2o3o"` is parsed successfully, producing
`symmetryMatrix[0][1] = 5/2` which differs from `coxeterMatrix[0][1] = 5`,
but `polygen` applied to `"x5/2o3o"` does **not** raise an
unsupported-feature error: the fractional-symmetry check is commented out in
the source, and `polygen` returns a polytope (20 vertices, 30 edges, 12
faces). -/
theorem polygen_fractional_parse_and_assemble :
    (parsePlaintextCoxeterDiagram "x5/2o3o").map (fun i =>
        ((i.symmetryMatrix.getD 0 []).getD 1 0, (i.coxeterMatrix.getD 0 []).getD 1 0))
      = .ok (mkRat 5 2, 5) ∧
    mkRat 5 2 ≠ (5 : ℚ) ∧
    (polygen "x5/2o3o").map (fun p =>
        (p.vertices.length, p.edges.length, p.faces.length)) = .ok (20, 30, 12) :=
  ⟨by decide, by decide, by decide⟩

/-- **C8.**  `parsePlaintextCoxeterDiagram "x4o3o3*z"` raises a
`DiagramSyntaxError` whose span `[6, 8)` is exactly the violating
virtual-node reference `*z`, whose reasons report that the target `z` is out
of range for the 3-node diagram (`a`..`c`), and whose rendered message
brackets the violating span; no `PolytopeDescription` is returned. -/
theorem parse_vnode_out_of_range :
    parsePlaintextCoxeterDiagram "x4o3o3*z" = .error
      { left := 6, right := 8,
        details := ["Virtual node must point to a valid node",
                    "z does not lie between a and c"] } ∧
    ParseErr.message "x4o3o3*z"
      { left := 6, right := 8,
        details := ["Virtual node must point to a valid node",
                    "z does not lie between a and c"] }
      = "Error parsing diagram at: x4o3o3[*z]\n- Virtual node must point to a valid node\n- z does not lie between a and c" :=
  ⟨by decide, by decide⟩

/-- The coset table that `new CosetTable("abc", ["babababa", "caca", "cbcbcb"], [])`
constructs (the cube's reflection group over the trivial subgroup), used as a
concrete instance below. -/
def b3ct : CT :=
  { isCoxeter := true
    genCount := 3
    relations := [[1, 0, 1, 0, 1, 0, 1, 0], [2, 0, 2, 0], [2, 1, 2, 1, 2, 1]]
    subgens := []
    equivalence := [0]
    deadQueue := []
    table := [[none, none, none]]
    alphabet := ['a', 'b', 'c']
    char2int := [('a', 0), ('b', 1), ('c', 2)] }

/-- **C7.**  For every `CosetTable` and every iteration bound: if the HLT main
loop does not finish walking the table within the bound (`hltLoop` reports the
`iter >= MAX_ITER` flag), then `solve` raises exactly the
`"Iteration limit exceeded"` error — and, the result being `Except.error`, no
partial table is exposed; conversely, whenever `solve` returns normally the
main loop finished within the bound (flag `false`, i.e. the loop ran out of
cosets to process, every row having been scanned and filled) and the returned
table is its compression. -/
theorem solve_iteration_limit (t : CT) (MAX : Nat) :
    (∀ s₀, CT.hltSubgens t.subgens t = .ok s₀ →
        (CT.hltLoop MAX s₀ 0).map Prod.snd = .ok true →
        t.solve MAX = .error "Iteration limit exceeded") ∧
    (∀ t', t.solve MAX = .ok t' →
        ∃ s₀ s, CT.hltSubgens t.subgens t = .ok s₀ ∧
          CT.hltLoop MAX s₀ 0 = .ok (s, false) ∧ s.compress = .ok t') := by
  constructor
  · intro s₀ h1 h2
    cases e : CT.hltLoop MAX s₀ 0 with
    | error msg => rw [e] at h2; simp [Except.map] at h2
    | ok p =>
      obtain ⟨s, b⟩ := p
      rw [e] at h2
      simp [Except.map] at h2
      subst h2
      simp [CT.solve, CT.hlt, h1, e, Except.bind, bind]
  · intro t'
    simp only [CT.solve, CT.hlt, bind, Except.bind]
    cases e1 : CT.hltSubgens t.subgens t with
    | error msg => intro h; simp at h
    | ok s₀ =>
      intro h
      simp only at h
      cases e2 : CT.hltLoop MAX s₀ 0 with
      | error msg => rw [e2] at h; simp at h
      | ok p =>
        obtain ⟨s, b⟩ := p
        rw [e2] at h
        cases b with
        | true => simp at h
        | false => simp at h; exact ⟨s₀, s, rfl, e2, h⟩

/-- **C7 (witness).**  On the cube group's table with the artificially tiny
bound `3` (a realizable diagram, so the enumeration would finish with a larger
bound — `cosetTable_cube_group_order_48` shows the default bound solves it),
the loop hits the bound and `solve` raises `"Iteration limit exceeded"`. -/
theorem solve_iteration_limit_witness :
    mkCosetTable "abc" ["babababa", "caca", "cbcbcb"] [] = .ok b3ct ∧
    (CT.hltLoop 3 b3ct 0).map Prod.snd = .ok true ∧
    b3ct.solve 3 = .error "Iteration limit exceeded" :=
  ⟨by decide, by decide,
    (solve_iteration_limit b3ct 3).1 b3ct (by decide) (by decide)⟩

/-- The `PolytopeDescription` that parsing `"x4o3o"` produces, used as the
concrete instance below. -/
def cubeDescription : PolytopeDescription :=
  { diagram := "x4o3o"
    combineMethod := CombineMethod.none
    symmetryMatrix := [[1, 4, 2], [4, 1, 3], [2, 3, 1]]
    coxeterMatrix := [[1, 4, 2], [4, 1, 3], [2, 3, 1]]
    subpolytopes := [⟨[some 'x', some 'o', some 'o'], [true, false, false],
      [false, false, false], [false, false, false]⟩] }

/-- **C9 (counterexample).**  The claim promises a unit diagonal for every
successful parse, but `"x3*a"` — a self-targeting virtual node — parses
successfully with `symmetryMatrix = coxeterMatrix = [[3]]`: the diagonal
entry is `3`, not `1`. -/
theorem parse_unit_diagonal_counterexample :
    (parsePlaintextCoxeterDiagram "x3*a").map
        (fun i => (i.symmetryMatrix, i.coxeterMatrix)) = .ok ([[3]], [[3]]) ∧
    ¬ MatUnitDiag ([[3]] : List (List ℚ)) 0 1 :=
  ⟨by decide, fun hmd => absurd (hmd 0 (by decide)) (by decide)⟩

/-- **C9 (amended).**  For every diagram string on which
`parsePlaintextCoxeterDiagram` returns successfully, the returned
`symmetryMatrix` and `coxeterMatrix` are symmetric (`S[i][j] = S[j][i]` and
`C[i][j] = C[j][i]` for all `i`, `j`); and whenever the diagram contains no
virtual-node reference (no `'*'` character), they also have unit diagonal.
(The unit-diagonal half cannot be unconditional: a virtual node may make an
edge loop onto its own node and overwrite the diagonal, as in `"x3*a"`.) -/
theorem parse_matrices_symmetric (diagram : String) (info : PolytopeDescription)
    (h : parsePlaintextCoxeterDiagram diagram = .ok info) :
    (MatSymm info.symmetryMatrix 0 ∧ MatSymm info.coxeterMatrix 0) ∧
    ('*' ∉ diagram.data →
      MatUnitDiag info.symmetryMatrix 0 1 ∧ MatUnitDiag info.coxeterMatrix 0 1) := by
  unfold parsePlaintextCoxeterDiagram at h
  simp only [bind, Except.bind] at h
  cases e1 : laceStep diagram.data with
  | error e => rw [e1] at h; exact Except.noConfusion h
  | ok p =>
    obtain ⟨cm, cs⟩ := p
    rw [e1] at h
    simp only at h
    obtain ⟨cm', n, spc, st, hloop, hS, hC⟩ := parseRest_ok_inv h
    have hbase0 : ParseInvBase n
        ⟨(List.range n).map fun i => (List.range n).map fun j => if i = j then (1 : ℚ) else 2,
         (List.range n).map fun i => (List.range n).map fun j => if i = j then 1 else 2,
         List.replicate spc ⟨[], [], [], []⟩, true, -1, 0⟩ :=
      ⟨initMat_square n _, initMat_square n _, initMat_symm n 1 2 0, initMat_symm n 1 2 0⟩
    have hbase := parseLoop_base (cs.length + 1) 0 _ st hbase0 hloop
    refine ⟨⟨hS ▸ hbase.2.2.1, hC ▸ hbase.2.2.2⟩, ?_⟩
    intro hstar
    have hstarcs : '*' ∉ cs := fun hc => hstar (laceStep_cs e1 '*' hc)
    have hstar0 : ParseInvStar
        ⟨(List.range n).map fun i => (List.range n).map fun j => if i = j then (1 : ℚ) else 2,
         (List.range n).map fun i => (List.range n).map fun j => if i = j then 1 else 2,
         List.replicate spc ⟨[], [], [], []⟩, true, -1, 0⟩ :=
      ⟨initMat_diag n 1 2 0, initMat_diag n 1 2 0, le_refl 0, fun hf => by simp at hf⟩
    have hstarInv := parseLoop_star hstarcs (cs.length + 1) 0 _ st hbase0 hstar0 hloop
    exact ⟨hS ▸ hstarInv.1, hC ▸ hstarInv.2.1⟩


/-- **C9 (witness).**  The amended theorem applied to the concrete parse of
`"x4o3o"`. -/
theorem parse_matrices_symmetric_witness :
    parsePlaintextCoxeterDiagram "x4o3o" = .ok cubeDescription ∧
    ((MatSymm cubeDescription.symmetryMatrix 0 ∧
      MatSymm cubeDescription.coxeterMatrix 0) ∧
     ('*' ∉ "x4o3o".data →
       MatUnitDiag cubeDescription.symmetryMatrix 0 1 ∧
       MatUnitDiag cubeDescription.coxeterMatrix 0 1)) :=
  ⟨by decide, parse_matrices_symmetric "x4o3o" cubeDescription (by decide)⟩

end FourD
